import Mathlib

/-!
Shallow embedding of `src/crates/cargo-contract/src/cmd/mod.rs` from
baron-chain/bc-cargo-contract: hash parsing, dry-run result rendering,
transaction confirmation, and extrinsic option validation.
-/

set_option maxRecDepth 4000

namespace CargoContract

/-- Decidable equality for `Except`, used to evaluate the embedded fallible
functions on concrete inputs. -/
instance {ε α : Type} [DecidableEq ε] [DecidableEq α] : DecidableEq (Except ε α)
  | Except.error a, Except.error b =>
    if h : a = b then Decidable.isTrue (by rw [h])
    else Decidable.isFalse (fun hh => h (by cases hh; rfl))
  | Except.error _, Except.ok _ => Decidable.isFalse (fun h => Except.noConfusion h)
  | Except.ok _, Except.error _ => Decidable.isFalse (fun h => Except.noConfusion h)
  | Except.ok a, Except.ok b =>
    if h : a = b then Decidable.isTrue (by rw [h])
    else Decidable.isFalse (fun hh => h (by cases hh; rfl))

/-! ### Hash parsing (`parse_code_hash`, line 286) -/

/-- Errors surfaced by hash parsing.  The source returns `anyhow` errors: the
hex-decode failures of `contract_build::util::decode_hex` (a character outside
`[0-9a-fA-F]`, or a digit count that does not split into whole bytes) and the
explicit 32-byte length check of `parse_code_hash` itself. -/
inductive HashError where
  | malformedHex
  | oddLength
  | wrongLength
deriving DecidableEq, Repr

/-- Predicate for the characters `[0-9a-fA-F]` accepted by hexadecimal
decoding (`'0'..'9'`, `'a'..'f'`, `'A'..'F'` as code points). -/
def isHexDigit (c : Char) : Bool :=
  (48 ≤ c.toNat && c.toNat ≤ 57) ||
  (97 ≤ c.toNat && c.toNat ≤ 102) ||
  (65 ≤ c.toNat && c.toNat ≤ 70)

/-- Numeric value of a hexadecimal digit character. -/
def hexVal (c : Char) : Nat :=
  if 48 ≤ c.toNat ∧ c.toNat ≤ 57 then c.toNat - 48
  else if 97 ≤ c.toNat ∧ c.toNat ≤ 102 then c.toNat - 87
  else if 65 ≤ c.toNat ∧ c.toNat ≤ 70 then c.toNat - 55
  else 0

/-- Removal of one optional leading `0x` before hex decoding
(the source checks `starts_with("0x")` and then drops those two characters). -/
def strip0x (cs : List Char) : List Char :=
  match cs with
  | c0 :: c1 :: rest => if c0 = '0' ∧ c1 = 'x' then rest else c0 :: c1 :: rest
  | _ => cs

/-- Byte values of consecutive pairs of hexadecimal digits. -/
def decodePairs : List Char → List Nat
  | c1 :: c2 :: rest => (16 * hexVal c1 + hexVal c2) :: decodePairs rest
  | _ => []

/-- Modelled from the spec: `contract_build::util::decode_hex`, which
`parse_code_hash` calls, lives in the `contract-build` crate and is not among
the provided sources.  Per the spec it accepts input with or without a leading
`0x`, decodes the remaining characters as hexadecimal, and fails with
`MalformedHex` when characters outside `[0-9a-fA-F]` appear.  Hexadecimal
decoding turns digit pairs into bytes, so an odd number of digits cannot be
decoded into whole bytes; the spec names no error for that case, so it is
rejected here with the distinct `oddLength` error. -/
def decode_hex (input : List Char) : Except HashError (List Nat) :=
  if (strip0x input).all isHexDigit = true then
    if (strip0x input).length % 2 = 0 then Except.ok (decodePairs (strip0x input))
    else Except.error HashError.oddLength
  else Except.error HashError.malformedHex

/-- Embedding of `parse_code_hash` (mod.rs line 286): hex-decode the input,
then fail unless exactly 32 bytes were produced. -/
def parse_code_hash (input : String) : Except HashError (List Nat) :=
  match decode_hex input.toList with
  | Except.error e => Except.error e
  | Except.ok bytes =>
      if bytes.length ≠ 32 then Except.error HashError.wrongLength
      else Except.ok bytes

/-- Lower-case hexadecimal digit character for a value below 16. -/
def toHexDigitChar (n : Nat) : Char :=
  if n < 10 then Char.ofNat (48 + n) else Char.ofNat (87 + n)

/-- Two lower-case hexadecimal digits per byte, in order. -/
def encodeHexChars : List Nat → List Char
  | [] => []
  | b :: rest => toHexDigitChar (b / 16) :: toHexDigitChar (b % 16) :: encodeHexChars rest

/-- Hexadecimal rendering of a byte list, with a leading `0x`. -/
def encode_hex_0x (bs : List Nat) : String :=
  String.mk ('0' :: 'x' :: encodeHexChars bs)

/-! ### Transaction confirmation (`prompt_confirm_tx`, line 196) -/

/-- Errors surfaced by `prompt_confirm_tx`: the "Transaction not submitted"
refusal and the "Expected either 'y' or 'n', got '{c}'" error carrying the
matched text `c`. -/
inductive ConfirmError where
  | userDeclined
  | unrecognized (input : String)
deriving DecidableEq, Repr

/-- Embedding of Rust's `char::is_whitespace`: the Unicode White_Space code
points. -/
def rustIsWhitespace (c : Char) : Bool :=
  (9 ≤ c.toNat && c.toNat ≤ 13) || c.toNat = 32 || c.toNat = 133 || c.toNat = 160 ||
  c.toNat = 5760 || (8192 ≤ c.toNat && c.toNat ≤ 8202) || c.toNat = 8232 ||
  c.toNat = 8233 || c.toNat = 8239 || c.toNat = 8287 || c.toNat = 12288

/-- Embedding of Rust's `str::trim`: remove leading and trailing whitespace. -/
def rustTrim (cs : List Char) : List Char :=
  ((cs.dropWhile rustIsWhitespace).reverse.dropWhile rustIsWhitespace).reverse

/-- Embedding of Rust's `char::to_lowercase` on the range the prompt compares
against: letters `A..Z` map to `a..z`, everything else is unchanged. -/
def rustToLower (c : Char) : Char :=
  if 65 ≤ c.toNat && c.toNat ≤ 90 then Char.ofNat (c.toNat + 32) else c

/-- The normalisation `buf.trim().to_lowercase()` applied by
`prompt_confirm_tx` (mod.rs line 211) to the line read from standard input. -/
def normalize_confirm (line : String) : String :=
  String.mk ((rustTrim line.toList).map rustToLower)

/-- Embedding of the decision part of `prompt_confirm_tx` (mod.rs line 211):
the line read from standard input is trimmed and lower-cased, then matched
against `"y" | ""`, `"n"`, and the catch-all `c`. -/
def prompt_confirm_tx (line : String) : Except ConfirmError Unit :=
  if normalize_confirm line = "y" ∨ normalize_confirm line = "" then Except.ok ()
  else if normalize_confirm line = "n" then Except.error ConfirmError.userDeclined
  else Except.error (ConfirmError.unrecognized (normalize_confirm line))

/-! ### Dry-run result rendering (`display_contract_exec_result`, line 146) -/

/-- Values of the `ContractResult` consumed by the display function.  The
numeric fields come from the external pallet primitives and are only ever
rendered through `format!("{:?}", _)`, so each is carried here as its
rendered text; the debug message is the raw byte buffer that the function
itself decodes as UTF-8. -/
structure ContractResult where
  gas_consumed : String
  gas_required : String
  storage_deposit : String
  debug_message : List Nat
deriving DecidableEq, Repr

/-- Error surfaced by the display function, from the context string "Error
decoding UTF8 debug message bytes" attached to a `from_utf8` failure. -/
inductive DisplayError where
  | invalidDebugEncoding
deriving DecidableEq, Repr

/-- Embedding of `std::str::from_utf8`: standard UTF-8 validation and
decoding of a byte list.  Accepts exactly the well-formed encodings
(continuation bytes in `0x80..0xBF`, no overlong forms, no surrogate code
points, nothing above `0x10FFFF`). -/
def utf8Decode : List Nat → Option (List Char)
  | [] => some []
  | b1 :: rest =>
    if b1 < 0x80 then
      match utf8Decode rest with
      | some cs => some (Char.ofNat b1 :: cs)
      | none => none
    else if b1 < 0xC2 then none
    else if b1 < 0xE0 then
      match rest with
      | b2 :: rest2 =>
        if 0x80 ≤ b2 ∧ b2 < 0xC0 then
          match utf8Decode rest2 with
          | some cs => some (Char.ofNat ((b1 - 0xC0) * 64 + (b2 - 0x80)) :: cs)
          | none => none
        else none
      | [] => none
    else if b1 < 0xF0 then
      match rest with
      | b2 :: b3 :: rest3 =>
        if (0x80 ≤ b2 ∧ b2 < 0xC0) ∧ (0x80 ≤ b3 ∧ b3 < 0xC0) then
          let cp := (b1 - 0xE0) * 4096 + (b2 - 0x80) * 64 + (b3 - 0x80)
          if 0x800 ≤ cp ∧ (cp < 0xD800 ∨ 0xDFFF < cp) then
            match utf8Decode rest3 with
            | some cs => some (Char.ofNat cp :: cs)
            | none => none
          else none
        else none
      | _ => none
    else if b1 < 0xF5 then
      match rest with
      | b2 :: b3 :: b4 :: rest4 =>
        if (0x80 ≤ b2 ∧ b2 < 0xC0) ∧ (0x80 ≤ b3 ∧ b3 < 0xC0) ∧ (0x80 ≤ b4 ∧ b4 < 0xC0) then
          let cp := (b1 - 0xF0) * 262144 + (b2 - 0x80) * 4096 + (b3 - 0x80) * 64 + (b4 - 0x80)
          if 0x10000 ≤ cp ∧ cp ≤ 0x10FFFF then
            match utf8Decode rest4 with
            | some cs => some (Char.ofNat cp :: cs)
            | none => none
          else none
        else none
      | _ => none
    else none

/-- Segments of a character list as Rust's `split_inclusive('\n')` produces
them: every segment ends with `'\n'` except possibly the last, and an empty
input yields no segments. -/
def splitInclusiveNl : List Char → List (List Char)
  | [] => []
  | c :: rest =>
    let segs := splitInclusiveNl rest
    if c = '\n' then ['\n'] :: segs
    else
      match segs with
      | [] => [[c]]
      | seg :: tl => (c :: seg) :: tl

/-- Per-segment cleanup of Rust's `str::lines`: strip one trailing `'\n'`,
and only when that stripping happened also strip one trailing `'\r'`. -/
def lineMap (seg : List Char) : List Char :=
  if seg.getLast? = some '\n' then
    let s2 := seg.dropLast
    if s2.getLast? = some '\r' then s2.dropLast else s2
  else seg

/-- Embedding of Rust's `str::lines`. -/
def rustLines (cs : List Char) : List (List Char) :=
  (splitInclusiveNl cs).map lineMap

/-- The `STORAGE_DEPOSIT_KEY` constant (mod.rs line 142). -/
def STORAGE_DEPOSIT_KEY : String := "Storage Total Deposit"

/-- The `MAX_KEY_COL_WIDTH` constant (mod.rs line 143). -/
def MAX_KEY_COL_WIDTH : Nat := STORAGE_DEPOSIT_KEY.length + 1

/-- Debug-message rows of the display function (mod.rs lines 161 to 167):
the first line is printed with the key "Debug Message", every further line
with an empty key. -/
def debugRows : List (List Char) → List (String × String)
  | [] => []
  | l :: ls => ("Debug Message", String.mk l) :: ls.map (fun l2 => ("", String.mk l2))

/-- Embedding of `display_contract_exec_result` (mod.rs line 146).  The first
component is the ordered sequence of `(key, value)` rows the function prints
via `name_value_println!`; the second is the error it returns, if any.  The
source builds the line iterator with `from_utf8(..)?` on line 149 before any
row is printed, so a UTF-8 decoding failure returns early with no rows. -/
def display_contract_exec_result (result : ContractResult) :
    List (String × String) × Option DisplayError :=
  match utf8Decode result.debug_message with
  | none => ([], some DisplayError.invalidDebugEncoding)
  | some s =>
      let debug_message_lines := rustLines s
      (("Gas Consumed", result.gas_consumed) ::
       ("Gas Required", result.gas_required) ::
       (STORAGE_DEPOSIT_KEY, result.storage_deposit) ::
       debugRows debug_message_lines, none)

/-! ### Extrinsic options (`CLIExtrinsicOpts`, line 93) -/

/-- Embedding of the `CLIExtrinsicOpts` record (mod.rs line 93).  Field types
from external crates (`PathBuf`, `url::Url`, the balance type) are carried as
already-parsed plain values. -/
structure ExecutionOptions where
  file : Option String
  manifest_path : Option String
  url : String
  suri : String
  execute : Bool
  storage_deposit_limit : Option Nat
  skip_dry_run : Bool
  skip_confirm : Bool
deriving DecidableEq, Repr

/-- Error surfaced by options validation. -/
inductive OptionsError where
  | conflictingArtifactSource
deriving DecidableEq, Repr

/-- Modelled from the spec: the validating constructor of ExecutionOptions.
In the source the mutual exclusion of `file` and `manifest_path` is declared
with the clap attribute `conflicts_with = "manifest_path"` (mod.rs line 97)
and enforced by the external clap crate, whose code is not among the provided
sources.  Per the spec, supplying both locators fails with
`ConflictingArtifactSource`; other fields arrive already parsed. -/
def mk_execution_options (file manifest_path : Option String) (url suri : String)
    (execute : Bool) (storage_deposit_limit : Option Nat)
    (skip_dry_run skip_confirm : Bool) : Except OptionsError ExecutionOptions :=
  if file.isSome && manifest_path.isSome then
    Except.error OptionsError.conflictingArtifactSource
  else
    Except.ok
      { file := file
        manifest_path := manifest_path
        url := url
        suri := suri
        execute := execute
        storage_deposit_limit := storage_deposit_limit
        skip_dry_run := skip_dry_run
        skip_confirm := skip_confirm }

/-! ### Supporting lemmas for hash parsing -/

theorem hexVal_lt (c : Char) (h : isHexDigit c = true) : hexVal c < 16 := by
  unfold isHexDigit at h
  simp only [Bool.or_eq_true, Bool.and_eq_true, decide_eq_true_eq] at h
  unfold hexVal
  split_ifs <;> omega

theorem decodePairs_length (cs : List Char) : (decodePairs cs).length = cs.length / 2 := by
  match cs with
  | [] => simp [decodePairs]
  | [c] => simp [decodePairs]
  | c1 :: c2 :: rest =>
    have ih := decodePairs_length rest
    simp only [decodePairs, List.length_cons, ih]
    omega

theorem decodePairs_lt (cs : List Char) (h : cs.all isHexDigit = true) :
    ∀ b ∈ decodePairs cs, b < 256 := by
  match cs with
  | [] => intro b hb; simp [decodePairs] at hb
  | [c] => intro b hb; simp [decodePairs] at hb
  | c1 :: c2 :: rest =>
    intro b hb
    simp only [List.all_cons, Bool.and_eq_true] at h
    simp only [decodePairs, List.mem_cons] at hb
    rcases hb with hb | hb
    · have h1 := hexVal_lt c1 h.1
      have h2 := hexVal_lt c2 h.2.1
      omega
    · exact decodePairs_lt rest h.2.2 b hb

theorem toHexDigitChar_spec :
    ∀ n : Fin 16, isHexDigit (toHexDigitChar n.val) = true ∧
      hexVal (toHexDigitChar n.val) = n.val := by
  decide

theorem toHexDigitChar_spec' (n : Nat) (h : n < 16) :
    isHexDigit (toHexDigitChar n) = true ∧ hexVal (toHexDigitChar n) = n :=
  toHexDigitChar_spec ⟨n, h⟩

theorem encodeHexChars_all_hex (bs : List Nat) (h : ∀ b ∈ bs, b < 256) :
    (encodeHexChars bs).all isHexDigit = true := by
  match bs with
  | [] => rfl
  | b :: rest =>
    have hb : b < 256 := h b (by simp)
    have h1 := (toHexDigitChar_spec' (b / 16) (by omega)).1
    have h2 := (toHexDigitChar_spec' (b % 16) (by omega)).1
    simp only [encodeHexChars, List.all_cons, Bool.and_eq_true]
    exact ⟨h1, h2, encodeHexChars_all_hex rest (fun x hx => h x (List.mem_cons_of_mem _ hx))⟩

theorem encodeHexChars_length (bs : List Nat) :
    (encodeHexChars bs).length = 2 * bs.length := by
  match bs with
  | [] => rfl
  | b :: rest =>
    have ih := encodeHexChars_length rest
    simp only [encodeHexChars, List.length_cons, ih]
    omega

theorem decodePairs_encodeHexChars (bs : List Nat) (h : ∀ b ∈ bs, b < 256) :
    decodePairs (encodeHexChars bs) = bs := by
  match bs with
  | [] => rfl
  | b :: rest =>
    have hb : b < 256 := h b (by simp)
    have h1 := (toHexDigitChar_spec' (b / 16) (by omega)).2
    have h2 := (toHexDigitChar_spec' (b % 16) (by omega)).2
    simp only [encodeHexChars, decodePairs]
    rw [h1, h2, decodePairs_encodeHexChars rest (fun x hx => h x (List.mem_cons_of_mem _ hx))]
    congr 1
    omega

theorem strip0x_cons_0x (rest : List Char) : strip0x ('0' :: 'x' :: rest) = rest := by
  simp [strip0x]

theorem strip0x_all_hex (cs : List Char) (h : cs.all isHexDigit = true) : strip0x cs = cs := by
  match cs with
  | [] => rfl
  | [c] => rfl
  | c0 :: c1 :: rest =>
    have hnot : ¬(c0 = '0' ∧ c1 = 'x') := by
      rintro ⟨h0, h1⟩
      subst h1
      simp only [List.all_cons, Bool.and_eq_true] at h
      exact absurd h.2.1 (by decide)
    simp [strip0x, hnot]

/-! ### Claim theorems for hash parsing -/

/-- Counterexample to C1: the all-hex-digit input "abc" has 3 hex digits, a
count different from 64, yet `parse_code_hash` rejects it with the odd-length
hex-decoding error rather than the 32-byte length error, because three hex
digits do not decode into whole bytes. -/
theorem parse_code_hash_odd_hex_not_wrong_length :
    (strip0x "abc".toList).all isHexDigit = true ∧
    (strip0x "abc".toList).length ≠ 64 ∧
    parse_code_hash "abc" ≠ Except.error HashError.wrongLength ∧
    parse_code_hash "abc" = Except.error HashError.oddLength := by
  decide

/-- C1 (amended): for every input whose characters after the optional `0x`
are all hexadecimal digits but whose digit count is not 64, `parse_code_hash`
never fails with the malformed-hex error; it fails with the 32-byte length
error when the digit count is even (the length check runs only after decoding
succeeds), and with the odd-length decoding error when the count is odd. -/
theorem parse_code_hash_wrong_length_cases (input : String)
    (hhex : (strip0x input.toList).all isHexDigit = true)
    (hlen : (strip0x input.toList).length ≠ 64) :
    parse_code_hash input ≠ Except.error HashError.malformedHex ∧
    ((strip0x input.toList).length % 2 = 0 →
      parse_code_hash input = Except.error HashError.wrongLength) ∧
    ((strip0x input.toList).length % 2 = 1 →
      parse_code_hash input = Except.error HashError.oddLength) := by
  by_cases hpar : (strip0x input.toList).length % 2 = 0
  · have h1 : decode_hex input.toList = Except.ok (decodePairs (strip0x input.toList)) := by
      unfold decode_hex
      rw [if_pos hhex, if_pos hpar]
    have h2 : (decodePairs (strip0x input.toList)).length ≠ 32 := by
      rw [decodePairs_length]
      omega
    have h3 : parse_code_hash input = Except.error HashError.wrongLength := by
      unfold parse_code_hash
      rw [h1]
      exact if_pos h2
    refine ⟨by simp [h3], fun _ => h3, fun hodd => by omega⟩
  · have h1 : decode_hex input.toList = Except.error HashError.oddLength := by
      unfold decode_hex
      rw [if_pos hhex, if_neg hpar]
    have h3 : parse_code_hash input = Except.error HashError.oddLength := by
      unfold parse_code_hash
      rw [h1]
    refine ⟨by simp [h3], fun heven => absurd heven hpar, fun _ => h3⟩

/-- Witness for the amended C1 at a concrete input: 62 zeros are valid hex
digits, an even count different from 64, and parsing fails with the 32-byte
length error. -/
theorem parse_code_hash_wrong_length_witness :
    parse_code_hash "00000000000000000000000000000000000000000000000000000000000000" =
      Except.error HashError.wrongLength :=
  (parse_code_hash_wrong_length_cases
    "00000000000000000000000000000000000000000000000000000000000000"
    (by decide) (by decide)).2.1 (by decide)

/-- Counterexample to C4: the input accepted by the source's own test starts
with `0x`, so it contains the character `x`, which is outside `[0-9a-fA-F]`,
yet `parse_code_hash` succeeds on it instead of failing with the
malformed-hex error. -/
theorem parse_code_hash_accepts_0x_input :
    'x' ∈ "0x0000000000000000000000000000000000000000000000000000000000000000".toList ∧
    isHexDigit 'x' = false ∧
    parse_code_hash "0x0000000000000000000000000000000000000000000000000000000000000000" =
      Except.ok (List.replicate 32 0) := by
  decide

/-- C4 (amended): for every input containing, after removal of the optional
leading `0x`, at least one character outside `[0-9a-fA-F]`, `parse_code_hash`
fails with the malformed-hex error regardless of the input's length. -/
theorem parse_code_hash_malformed (input : String)
    (h : ∃ c ∈ strip0x input.toList, isHexDigit c = false) :
    parse_code_hash input = Except.error HashError.malformedHex := by
  have hall : ¬((strip0x input.toList).all isHexDigit = true) := by
    intro hall
    obtain ⟨c, hc, hf⟩ := h
    have := List.all_eq_true.mp hall c hc
    rw [hf] at this
    exact absurd this (by decide)
  unfold parse_code_hash decode_hex
  rw [if_neg hall]

/-- Witness for the amended C4 at a concrete input: "zz" contains the non-hex
character `z` and is rejected as malformed hex. -/
theorem parse_code_hash_malformed_witness :
    parse_code_hash "zz" = Except.error HashError.malformedHex :=
  parse_code_hash_malformed "zz" ⟨'z', by decide, by decide⟩

/-- C5 (confirmed): for every 64-character string of hexadecimal digits,
parsing with a leading `0x` returns exactly the same result as parsing the
bare string. -/
theorem parse_code_hash_prefix_insensitive (H : String)
    (hhex : H.toList.all isHexDigit = true) (hlen : H.toList.length = 64) :
    parse_code_hash ("0x" ++ H) = parse_code_hash H := by
  have htl : ("0x" ++ H).toList = '0' :: 'x' :: H.toList := by
    show ("0x" ++ H).data = '0' :: 'x' :: H.data
    rw [String.data_append]
    rfl
  unfold parse_code_hash decode_hex
  rw [htl, strip0x_cons_0x, strip0x_all_hex _ hhex]

/-- Witness for C5 at the source's own test vector. -/
theorem parse_code_hash_prefix_insensitive_witness :
    parse_code_hash ("0x" ++ "d43593c715fdd31c61141abd04a99fd6822c8558854ccde39a5684e7a56da27d") =
      parse_code_hash "d43593c715fdd31c61141abd04a99fd6822c8558854ccde39a5684e7a56da27d" :=
  parse_code_hash_prefix_insensitive
    "d43593c715fdd31c61141abd04a99fd6822c8558854ccde39a5684e7a56da27d"
    (by decide) (by decide)

/-- C8 (confirmed): every 32-byte value accepted by `parse_code_hash`, when
re-encoded as `0x`-prefixed hexadecimal and parsed again, yields the
identical byte value. -/
theorem parse_code_hash_roundtrip (input : String) (bs : List Nat)
    (h : parse_code_hash input = Except.ok bs) :
    parse_code_hash (encode_hex_0x bs) = Except.ok bs := by
  unfold parse_code_hash at h
  by_cases hall : (strip0x input.toList).all isHexDigit = true
  · by_cases hpar : (strip0x input.toList).length % 2 = 0
    · have h1 : decode_hex input.toList = Except.ok (decodePairs (strip0x input.toList)) := by
        unfold decode_hex
        rw [if_pos hall, if_pos hpar]
      rw [h1] at h
      replace h :
          (if (decodePairs (strip0x input.toList)).length ≠ 32 then
            Except.error HashError.wrongLength
          else Except.ok (decodePairs (strip0x input.toList))) = Except.ok bs := h
      by_cases hl : (decodePairs (strip0x input.toList)).length ≠ 32
      · rw [if_pos hl] at h
        exact absurd h (by simp)
      · rw [if_neg hl] at h
        have hbs : decodePairs (strip0x input.toList) = bs := by
          injection h
        have hbound : ∀ b ∈ bs, b < 256 := by
          rw [← hbs]
          exact decodePairs_lt _ hall
        have hlen32 : bs.length = 32 := by
          rw [← hbs]
          omega
        have htl : (encode_hex_0x bs).toList = '0' :: 'x' :: encodeHexChars bs := rfl
        unfold parse_code_hash decode_hex
        rw [htl, strip0x_cons_0x,
          if_pos (encodeHexChars_all_hex bs hbound),
          if_pos (by rw [encodeHexChars_length]; omega),
          decodePairs_encodeHexChars bs hbound]
        show (if bs.length ≠ 32 then Except.error HashError.wrongLength
          else Except.ok bs) = Except.ok bs
        rw [if_neg (show ¬(bs.length ≠ 32) from fun hc => hc hlen32)]
    · have h1 : decode_hex input.toList = Except.error HashError.oddLength := by
        unfold decode_hex
        rw [if_pos hall, if_neg hpar]
      rw [h1] at h
      exact absurd h (by simp)
  · have h1 : decode_hex input.toList = Except.error HashError.malformedHex := by
      unfold decode_hex
      rw [if_neg hall]
    rw [h1] at h
    exact absurd h (by simp)

/-- Witness for C8 at a concrete accepted input: the all-zero hash. -/
theorem parse_code_hash_roundtrip_witness :
    parse_code_hash (encode_hex_0x (List.replicate 32 0)) = Except.ok (List.replicate 32 0) :=
  parse_code_hash_roundtrip
    "0000000000000000000000000000000000000000000000000000000000000000"
    (List.replicate 32 0) (by decide)

/-! ### Claim theorems for transaction confirmation -/

/-- C3 (confirmed): the confirmation input is trimmed and compared
case-insensitively; an empty string, "y" and "Y" resolve to approval, "n"
resolves to the declined error, and every other normalised value resolves to
the unrecognized-input error carrying that value, with no re-prompting. -/
theorem prompt_confirm_tx_transitions :
    prompt_confirm_tx "" = Except.ok () ∧
    prompt_confirm_tx "y" = Except.ok () ∧
    prompt_confirm_tx "Y" = Except.ok () ∧
    prompt_confirm_tx "n" = Except.error ConfirmError.userDeclined ∧
    ∀ line : String, normalize_confirm line ≠ "y" → normalize_confirm line ≠ "" →
      normalize_confirm line ≠ "n" →
      prompt_confirm_tx line =
        Except.error (ConfirmError.unrecognized (normalize_confirm line)) := by
  refine ⟨by decide, by decide, by decide, by decide, ?_⟩
  intro line h1 h2 h3
  unfold prompt_confirm_tx
  rw [if_neg (by rintro (hc | hc) <;> [exact h1 hc; exact h2 hc]), if_neg h3]

/-- Witness for C3 at a concrete unrecognised input. -/
theorem prompt_confirm_tx_transitions_witness :
    prompt_confirm_tx "maybe" = Except.error (ConfirmError.unrecognized "maybe") :=
  prompt_confirm_tx_transitions.2.2.2.2 "maybe" (by decide) (by decide) (by decide)

/-- C9 (confirmed): the text carried inside the unrecognized-input error is
the trimmed and lower-cased form of what the user typed, not the raw line;
in particular "  MAYBE " yields an error carrying "maybe". -/
theorem prompt_confirm_tx_carries_normalized :
    (∀ line : String, normalize_confirm line ≠ "y" → normalize_confirm line ≠ "" →
      normalize_confirm line ≠ "n" →
      prompt_confirm_tx line =
        Except.error (ConfirmError.unrecognized
          (String.mk ((rustTrim line.toList).map rustToLower)))) ∧
    normalize_confirm "  MAYBE " = "maybe" ∧
    prompt_confirm_tx "  MAYBE " = Except.error (ConfirmError.unrecognized "maybe") := by
  refine ⟨?_, by decide, by decide⟩
  intro line h1 h2 h3
  unfold prompt_confirm_tx
  rw [if_neg (by rintro (hc | hc) <;> [exact h1 hc; exact h2 hc]), if_neg h3]
  rfl

/-- Witness for C9 at a concrete input with surrounding whitespace and upper
case. -/
theorem prompt_confirm_tx_carries_normalized_witness :
    prompt_confirm_tx "  UNKNOWN " = Except.error (ConfirmError.unrecognized "unknown") :=
  prompt_confirm_tx_carries_normalized.1 "  UNKNOWN " (by decide) (by decide) (by decide)

/-! ### Claim theorems for execution options -/

/-- C7 (confirmed): constructing the execution options with both artifact
locators present fails with the conflicting-artifact-source error;
constructing with neither succeeds; and every successfully constructed value
has at most one of the two locator fields set. -/
theorem mk_execution_options_exclusive :
    (∀ (f m url suri : String) (ex : Bool) (sdl : Option Nat) (sdr sc : Bool),
      mk_execution_options (some f) (some m) url suri ex sdl sdr sc =
        Except.error OptionsError.conflictingArtifactSource) ∧
    (∀ (url suri : String) (ex : Bool) (sdl : Option Nat) (sdr sc : Bool),
      ∃ opts, mk_execution_options none none url suri ex sdl sdr sc = Except.ok opts) ∧
    (∀ (f m : Option String) (url suri : String) (ex : Bool) (sdl : Option Nat)
      (sdr sc : Bool) (opts : ExecutionOptions),
      mk_execution_options f m url suri ex sdl sdr sc = Except.ok opts →
      ¬(opts.file.isSome = true ∧ opts.manifest_path.isSome = true)) := by
  refine ⟨?_, ?_, ?_⟩
  · intro f m url suri ex sdl sdr sc
    unfold mk_execution_options
    rw [if_pos (show ((some f).isSome && (some m).isSome) = true from rfl)]
  · intro url suri ex sdl sdr sc
    exact ⟨_, rfl⟩
  · intro f m url suri ex sdl sdr sc opts h hcontra
    unfold mk_execution_options at h
    by_cases hc : (f.isSome && m.isSome) = true
    · rw [if_pos hc] at h
      exact absurd h (by simp)
    · rw [if_neg hc] at h
      injection h with h'
      rw [← h'] at hcontra
      exact hc (by rw [Bool.and_eq_true]; exact hcontra)

/-- Witness for C7: a successfully constructed value with only the file
locator set has at most one locator present. -/
theorem mk_execution_options_exclusive_witness :
    ¬((some "contract.wasm" : Option String).isSome = true ∧
      (none : Option String).isSome = true) :=
  mk_execution_options_exclusive.2.2 (some "contract.wasm") none "ws://localhost:9944"
    "//Alice" true none false false
    ⟨some "contract.wasm", none, "ws://localhost:9944", "//Alice", true, none, false, false⟩
    rfl

/-! ### Supporting lemmas for dry-run result rendering -/

theorem getLast?_mem_of_eq {α : Type} (l : List α) (a : α) (h : l.getLast? = some a) :
    a ∈ l := by
  match l with
  | [] => simp at h
  | [b] =>
    simp only [List.getLast?_singleton, Option.some.injEq] at h
    simp [h]
  | b :: c :: t =>
    rw [List.getLast?_cons_cons] at h
    exact List.mem_cons_of_mem _ (getLast?_mem_of_eq (c :: t) a h)

theorem lineMap_no_newline (s : List Char) (h : '\n' ∉ s) : lineMap s = s := by
  unfold lineMap
  rw [if_neg]
  intro hc
  exact h (getLast?_mem_of_eq s '\n' hc)

theorem lineMap_append_nl (s : List Char) (hr : s.getLast? ≠ some '\r') :
    lineMap (s ++ ['\n']) = s := by
  unfold lineMap
  rw [if_pos (List.getLast?_concat s), List.dropLast_concat, if_neg hr]

theorem lineMap_append_crnl (s : List Char) : lineMap ((s ++ ['\r']) ++ ['\n']) = s := by
  unfold lineMap
  rw [if_pos (List.getLast?_concat (s ++ ['\r'])), List.dropLast_concat,
    if_pos (List.getLast?_concat s), List.dropLast_concat]

theorem splitInclusiveNl_cons_nl (rest : List Char) :
    splitInclusiveNl ('\n' :: rest) = ['\n'] :: splitInclusiveNl rest := by
  rw [splitInclusiveNl]
  simp

theorem splitInclusiveNl_cons_of_ne (c : Char) (rest : List Char) (hc : ¬c = '\n') :
    splitInclusiveNl (c :: rest) =
      match splitInclusiveNl rest with
      | [] => [[c]]
      | seg :: tl => (c :: seg) :: tl := by
  rw [splitInclusiveNl]
  simp [hc]

theorem splitInclusiveNl_append_last (cs : List Char) (x : Char)
    (hne : cs ≠ []) (hlast : cs.getLast? ≠ some '\n') :
    ∃ segs s, splitInclusiveNl cs = segs ++ [s] ∧ s ≠ [] ∧ '\n' ∉ s ∧
      s.getLast? = cs.getLast? ∧
      splitInclusiveNl (cs ++ [x]) = segs ++ [s ++ [x]] := by
  match cs with
  | [] => exact absurd rfl hne
  | [c] =>
    have hc : ¬(c = '\n') := by
      intro hcc
      exact hlast (by rw [hcc]; rfl)
    refine ⟨[], [c], by simp [splitInclusiveNl, hc], by simp, by simp [Ne.symm hc], rfl, ?_⟩
    by_cases hx : x = '\n'
    · subst hx
      simp [splitInclusiveNl, hc]
    · simp [splitInclusiveNl, hc, hx]
  | c :: c2 :: rest =>
    have hne2 : (c2 :: rest) ≠ [] := by simp
    have hlast2 : (c2 :: rest).getLast? ≠ some '\n' := by
      rwa [List.getLast?_cons_cons] at hlast
    obtain ⟨segs, s, hsplit, hsne, hsnl, hslast, hsplitx⟩ :=
      splitInclusiveNl_append_last (c2 :: rest) x hne2 hlast2
    by_cases hc : c = '\n'
    · subst hc
      refine ⟨['\n'] :: segs, s, ?_, hsne, hsnl, ?_, ?_⟩
      · rw [splitInclusiveNl_cons_nl, hsplit]
        rfl
      · rw [hslast, List.getLast?_cons_cons]
      · show splitInclusiveNl ('\n' :: ((c2 :: rest) ++ [x])) = (['\n'] :: segs) ++ [s ++ [x]]
        rw [splitInclusiveNl_cons_nl, hsplitx]
        rfl
    · cases hsegs : segs with
      | nil =>
        rw [hsegs, List.nil_append] at hsplit hsplitx
        have hlastc : (c :: s).getLast? = (c :: c2 :: rest).getLast? := by
          cases s with
          | nil => exact absurd rfl hsne
          | cons a t =>
            rw [List.getLast?_cons_cons, hslast, List.getLast?_cons_cons]
        refine ⟨[], c :: s, ?_, by simp, ?_, hlastc, ?_⟩
        · rw [splitInclusiveNl_cons_of_ne c _ hc, hsplit]
          rfl
        · intro hmem
          rcases List.mem_cons.mp hmem with hmem | hmem
          · exact hc hmem.symm
          · exact hsnl hmem
        · show splitInclusiveNl (c :: ((c2 :: rest) ++ [x])) = [] ++ [(c :: s) ++ [x]]
          rw [splitInclusiveNl_cons_of_ne c _ hc, hsplitx]
          rfl
      | cons g gs =>
        rw [hsegs] at hsplit hsplitx
        refine ⟨(c :: g) :: gs, s, ?_, hsne, hsnl, ?_, ?_⟩
        · rw [splitInclusiveNl_cons_of_ne c _ hc, hsplit, List.cons_append]
          rfl
        · rw [hslast, List.getLast?_cons_cons]
        · show splitInclusiveNl (c :: ((c2 :: rest) ++ [x])) = ((c :: g) :: gs) ++ [s ++ [x]]
          rw [splitInclusiveNl_cons_of_ne c _ hc, hsplitx, List.cons_append]
          rfl

theorem rustLines_append_newline (s : List Char) (hne : s ≠ [])
    (hn : s.getLast? ≠ some '\n') (hr : s.getLast? ≠ some '\r') :
    rustLines (s ++ ['\n']) = rustLines s ∧
    rustLines (s ++ ['\r', '\n']) = rustLines s := by
  obtain ⟨segs, t, hsplit, htne, htnl, htlast, hsplitn⟩ :=
    splitInclusiveNl_append_last s '\n' hne hn
  have htr : t.getLast? ≠ some '\r' := by
    rw [htlast]
    exact hr
  have hmap : List.map lineMap (splitInclusiveNl s) = List.map lineMap segs ++ [t] := by
    rw [hsplit, List.map_append]
    simp only [List.map_cons, List.map_nil]
    rw [lineMap_no_newline t htnl]
  constructor
  · unfold rustLines
    rw [hsplitn, List.map_append]
    simp only [List.map_cons, List.map_nil]
    rw [lineMap_append_nl t htr, hmap]
  · obtain ⟨segs2, t2, hsplit2, -, -, -, hsplitr⟩ :=
      splitInclusiveNl_append_last s '\r' hne hn
    have hid : segs2 = segs ∧ t2 = t := by
      have h12 : segs2 ++ [t2] = segs ++ [t] := by rw [← hsplit2, ← hsplit]
      have hinj := List.append_inj' h12 (by simp)
      exact ⟨hinj.1, by simpa using hinj.2⟩
    obtain ⟨rfl, rfl⟩ := hid
    have hne3 : s ++ ['\r'] ≠ [] := by simp
    have hlast3 : (s ++ ['\r']).getLast? ≠ some '\n' := by
      rw [List.getLast?_concat]
      simp
    obtain ⟨segs3, t3, hsplit3, -, -, -, hsplit3n⟩ :=
      splitInclusiveNl_append_last (s ++ ['\r']) '\n' hne3 hlast3
    have hid3 : segs3 = segs2 ∧ t3 = t2 ++ ['\r'] := by
      have h34 : segs3 ++ [t3] = segs2 ++ [t2 ++ ['\r']] := by rw [← hsplit3, ← hsplitr]
      have hinj := List.append_inj' h34 (by simp)
      exact ⟨hinj.1, by simpa using hinj.2⟩
    obtain ⟨rfl, rfl⟩ := hid3
    have hsp : s ++ ['\r', '\n'] = (s ++ ['\r']) ++ ['\n'] := by simp
    unfold rustLines
    rw [hsp, hsplit3n, List.map_append]
    simp only [List.map_cons, List.map_nil]
    rw [lineMap_append_crnl t2, hmap]

theorem display_eq_of_decode (r : ContractResult) (s : List Char)
    (hs : utf8Decode r.debug_message = some s) :
    display_contract_exec_result r =
      (("Gas Consumed", r.gas_consumed) :: ("Gas Required", r.gas_required) ::
       (STORAGE_DEPOSIT_KEY, r.storage_deposit) :: debugRows (rustLines s), none) := by
  unfold display_contract_exec_result
  rw [hs]

/-! ### Claim theorems for dry-run result rendering -/

/-- Counterexample to C2: on a debug buffer that is not valid UTF-8 the
display function emits no rows at all — the UTF-8 decoding happens on the
source's line 149, before any of the three fixed-label rows is printed — and
returns the invalid-encoding error. -/
theorem display_invalid_utf8_emits_nothing :
    display_contract_exec_result ⟨"1000000", "2000000", "deposit", [255]⟩ =
      ([], some DisplayError.invalidDebugEncoding) := by
  decide

/-- C2 (amended): when the debug buffer decodes as UTF-8 the function emits
the three fixed-label rows first, in order, and returns no error; when the
buffer is not valid UTF-8 the function fails with the invalid-encoding error
before emitting anything (the decode precedes the row printing, so the fixed
rows are not emitted in that case).  The error occurs exactly when decoding
fails. -/
theorem display_fixed_rows_and_decode (r : ContractResult) :
    (∀ s, utf8Decode r.debug_message = some s →
      (display_contract_exec_result r).2 = none ∧
      (display_contract_exec_result r).1.take 3 =
        [("Gas Consumed", r.gas_consumed), ("Gas Required", r.gas_required),
         ("Storage Total Deposit", r.storage_deposit)]) ∧
    (utf8Decode r.debug_message = none →
      display_contract_exec_result r = ([], some DisplayError.invalidDebugEncoding)) := by
  constructor
  · intro s hs
    rw [display_eq_of_decode r s hs]
    exact ⟨rfl, rfl⟩
  · intro hn
    unfold display_contract_exec_result
    rw [hn]

/-- Witness for the amended C2 at a concrete valid buffer. -/
theorem display_fixed_rows_witness :
    (display_contract_exec_result ⟨"gc", "gr", "sd", []⟩).2 = none ∧
    (display_contract_exec_result ⟨"gc", "gr", "sd", []⟩).1.take 3 =
      [("Gas Consumed", "gc"), ("Gas Required", "gr"), ("Storage Total Deposit", "sd")] :=
  (display_fixed_rows_and_decode ⟨"gc", "gr", "sd", []⟩).1 [] (by decide)

/-- C6 (confirmed): for a valid UTF-8 debug buffer the display output is the
three fixed rows followed by the buffer's first line under the label "Debug
Message" and every further line under an empty label, in order; with no debug
lines only the three fixed rows are emitted. -/
theorem display_debug_rows_structure (r : ContractResult) (s : List Char)
    (hs : utf8Decode r.debug_message = some s) :
    (rustLines s = [] → display_contract_exec_result r =
      ([("Gas Consumed", r.gas_consumed), ("Gas Required", r.gas_required),
        ("Storage Total Deposit", r.storage_deposit)], none)) ∧
    (∀ l ls, rustLines s = l :: ls → display_contract_exec_result r =
      ([("Gas Consumed", r.gas_consumed), ("Gas Required", r.gas_required),
        ("Storage Total Deposit", r.storage_deposit),
        ("Debug Message", String.mk l)] ++ ls.map (fun l2 => ("", String.mk l2)), none)) := by
  rw [display_eq_of_decode r s hs]
  constructor
  · intro hnil
    rw [hnil]
    rfl
  · intro l ls hcons
    rw [hcons]
    rfl

/-- Witness for C6 at the spec's example buffer "line1\nline2\nline3". -/
theorem display_debug_rows_witness :
    display_contract_exec_result
      ⟨"gc", "gr", "sd",
        [108, 105, 110, 101, 49, 10, 108, 105, 110, 101, 50, 10, 108, 105, 110, 101, 51]⟩ =
      ([("Gas Consumed", "gc"), ("Gas Required", "gr"), ("Storage Total Deposit", "sd"),
        ("Debug Message", "line1")] ++ [("", "line2"), ("", "line3")], none) :=
  (display_debug_rows_structure
    ⟨"gc", "gr", "sd",
      [108, 105, 110, 101, 49, 10, 108, 105, 110, 101, 50, 10, 108, 105, 110, 101, 51]⟩
    ['l', 'i', 'n', 'e', '1', '\n', 'l', 'i', 'n', 'e', '2', '\n', 'l', 'i', 'n', 'e', '3']
    (by decide)).2
    ['l', 'i', 'n', 'e', '1']
    [['l', 'i', 'n', 'e', '2'], ['l', 'i', 'n', 'e', '3']]
    (by decide)

/-- Counterexample to C10: the buffer "line1\n" and that buffer followed by
one more trailing newline do not emit the same debug rows — the second
newline adds an empty-label row — so the claimed invariance fails for buffers
already ending in a newline. -/
theorem display_trailing_newline_extra_row :
    display_contract_exec_result ⟨"gc", "gr", "sd", [108, 105, 110, 101, 49, 10, 10]⟩ ≠
      display_contract_exec_result ⟨"gc", "gr", "sd", [108, 105, 110, 101, 49, 10]⟩ ∧
    (display_contract_exec_result ⟨"gc", "gr", "sd", [108, 105, 110, 101, 49, 10]⟩).1 =
      [("Gas Consumed", "gc"), ("Gas Required", "gr"), ("Storage Total Deposit", "sd"),
       ("Debug Message", "line1")] ∧
    (display_contract_exec_result ⟨"gc", "gr", "sd", [108, 105, 110, 101, 49, 10, 10]⟩).1 =
      [("Gas Consumed", "gc"), ("Gas Required", "gr"), ("Storage Total Deposit", "sd"),
       ("Debug Message", "line1"), ("", "")] := by
  decide

/-- C10 (amended): for a valid UTF-8 debug buffer whose decoded text is
nonempty and ends in neither a newline nor a carriage return, appending one
trailing "\n" — or its "\r\n" form — to the buffer leaves the emitted rows
unchanged; buffers already ending in a newline gain an extra empty row
instead. -/
theorem display_trailing_newline_invariant
    (gc gr sd : String) (bs bs2 : List Nat) (s : List Char)
    (hs : utf8Decode bs = some s)
    (hne : s ≠ []) (hn : s.getLast? ≠ some '\n') (hr : s.getLast? ≠ some '\r') :
    (utf8Decode bs2 = some (s ++ ['\n']) →
      display_contract_exec_result ⟨gc, gr, sd, bs2⟩ =
        display_contract_exec_result ⟨gc, gr, sd, bs⟩) ∧
    (utf8Decode bs2 = some (s ++ ['\r', '\n']) →
      display_contract_exec_result ⟨gc, gr, sd, bs2⟩ =
        display_contract_exec_result ⟨gc, gr, sd, bs⟩) := by
  have hlines := rustLines_append_newline s hne hn hr
  constructor
  · intro h2
    rw [display_eq_of_decode _ _ h2, display_eq_of_decode _ s hs, hlines.1]
  · intro h2
    rw [display_eq_of_decode _ _ h2, display_eq_of_decode _ s hs, hlines.2]

/-- Witness for the amended C10 at the buffer "line1" and its newline-
terminated form "line1\n". -/
theorem display_trailing_newline_witness :
    display_contract_exec_result ⟨"gc", "gr", "sd", [108, 105, 110, 101, 49, 10]⟩ =
      display_contract_exec_result ⟨"gc", "gr", "sd", [108, 105, 110, 101, 49]⟩ :=
  (display_trailing_newline_invariant "gc" "gr" "sd"
    [108, 105, 110, 101, 49] [108, 105, 110, 101, 49, 10]
    ['l', 'i', 'n', 'e', '1']
    (by decide) (by decide) (by decide) (by decide)).1 (by decide)

end CargoContract
